import Mathlib

/-!
# Verification of the `retry` HTTP retry client (src/retry.go)

Shallow embedding of the retry-execution engine of the `retry` package:
a `Client` wraps a transport and executes a request under a backoff
policy, replaying a buffered request body on every attempt and
classifying responses with a retry predicate.

The package's own code (`DoWithRetryFunc`, `DefaultRetryFunc`, the
`DefaultBackOff` parameters, `New`/`NewWithClient`/`WithLogger`) is
embedded directly from src/retry.go.  The backoff collaborator
(`backoff.Retry`, `backoff.ExponentialBackOff`, `backoff.WithMaxRetries`,
`backoff.Permanent`) is an external dependency whose source is not part
of this repository; its semantics are modelled from the specification
(§4.3 algorithm, §4.4 default parameters, §6 backoff boundary).

Effects are made explicit:
* the request body is a byte list together with the outcome of the
  initial `ioutil.ReadAll`;
* the transport is a function from the attempt index to either an error
  or a response;
* the retry loop is driven by fuel (the Go loop may not terminate for a
  never-stopping policy); running out of fuel yields `Outcome.diverge`;
* a call of `Errorf`/`Infof` on a nil logger is a Go nil-interface panic,
  modelled by `Outcome.panicked`;
* the state of the caller's request after the call is reported in
  `DoResult.finalBody`, and the body bytes installed before each
  transport invocation are recorded in `DoResult.bodiesSeen`.
-/

namespace Retry

/-- Errors of the embedding: `eof` is `io.EOF`; `ioErr` any other body
read error; `transportErr` an error returned by the transport
(`c.c.Do`); `needRetry` is the `errors.New("need retry")` value produced
when the predicate rejects a response; `permanentErr` is
`backoff.Permanent`; `failedToRetry` is the `fmt.Errorf("failed to
retried, err: %v", err)` wrapper; `bugNoResponse` is the "executed
request successfully, but failed to get response" error. -/
inductive Err where
  | eof : Err
  | ioErr : String → Err
  | transportErr : String → Err
  | needRetry : Err
  | permanentErr : Err → Err
  | failedToRetry : Err → Err
  | bugNoResponse : Err
deriving DecidableEq, Repr

/-- An `*http.Response`: the status code and the body bytes. -/
structure Response where
  statusCode : Int
  body : List Nat
deriving DecidableEq, Repr

/-- A request body stream together with the outcome of
`ioutil.ReadAll(r.Body)`: the bytes read and the error returned
(`none` for a clean read). -/
structure BodyStream where
  bytes : List Nat
  readAllErr : Option Err
deriving DecidableEq, Repr

/-- An `*http.Request`; only the `Body` field matters to the engine
(`nil` body is `none`). -/
structure Request where
  body : Option BodyStream
deriving DecidableEq, Repr

/-- The state of the caller's request `Body` field after the call:
untouched `nil`, the untouched original stream (the early-abort path
returns before closing it), or a `NopCloser` over the buffered bytes
with the original stream closed. -/
inductive FinalBody where
  | noBody : FinalBody
  | originalBody : BodyStream → FinalBody
  | buffered : List Nat → FinalBody
deriving DecidableEq, Repr

/-- The observable outcome of one `DoWithRetryFunc` call:
the returned response and error, the number of transport invocations,
the body bytes installed before each transport invocation (`none` when
no body was installed), and the final state of the request body. -/
structure DoResult where
  response : Option Response
  error : Option Err
  attempts : Nat
  bodiesSeen : List (Option (List Nat))
  finalBody : FinalBody
deriving DecidableEq, Repr

/-- Result of running the engine with a given amount of fuel:
`diverge` if the fuel ran out before the Go loop would have returned,
`panicked` if a nil-logger method call panicked, `done` otherwise. -/
inductive Outcome where
  | diverge : Outcome
  | panicked : Outcome
  | done : DoResult → Outcome
deriving DecidableEq, Repr

/-- Modelled from the spec: the backoff-policy boundary (§6) offers
`nextBackOff() -> duration-or-stop-signal` and `reset()`.  `σ` is the
policy's private state; `nextBackOff` returns `none` for the stop
signal or `some d` for a wait of `d` time-units, plus the new state. -/
structure BackOffM (σ : Type) where
  reset : σ → σ
  nextBackOff : σ → Option Nat × σ

/-- State of the exponential policy: the current interval in
time-units. -/
structure ExpoState where
  currentInterval : Nat
deriving DecidableEq, Repr

/-- Modelled from the spec: the exponential backoff policy of §4.4 with
the parameters of `DefaultBackOff` (src/retry.go:128-134): initial
interval 1 time-unit, no randomization, multiplier 2, max interval 60,
`intervalNext = min (interval * 2) 60`, and no elapsed-time stop. -/
def exponentialBackOff : BackOffM ExpoState where
  reset := fun _ => ⟨1⟩
  nextBackOff := fun s => (some s.currentInterval, ⟨min (s.currentInterval * 2) 60⟩)

/-- State of a `WithMaxRetries` wrapper: the number of retries granted
so far and the wrapped policy's state. -/
structure TriesState (σ : Type) where
  numTries : Nat
  inner : σ
deriving DecidableEq, Repr

/-- Modelled from the spec: `backoff.WithMaxRetries` bounds a policy to
a maximum retry count (§4.4): once `maxTries` delays have been granted
the next call signals stop; a zero bound means unbounded. -/
def withMaxRetries {σ : Type} (b : BackOffM σ) (maxTries : Nat) : BackOffM (TriesState σ) where
  reset := fun s => ⟨0, b.reset s.inner⟩
  nextBackOff := fun s =>
    if maxTries = 0 then
      let p := b.nextBackOff s.inner
      (p.1, ⟨s.numTries, p.2⟩)
    else if maxTries ≤ s.numTries then (none, s)
    else
      let p := b.nextBackOff s.inner
      (p.1, ⟨s.numTries + 1, p.2⟩)

/-- `DefaultMaxRetry` (src/retry.go:18). -/
def DefaultMaxRetry : Nat := 10

/-- `DefaultBackOff` (src/retry.go:127-137): the exponential policy
wrapped with a `DefaultMaxRetry`-times bound. -/
def DefaultBackOff : BackOffM (TriesState ExpoState) :=
  withMaxRetries exponentialBackOff DefaultMaxRetry

/-- The state of `DefaultBackOff` as constructed: `b.Reset()` is called
before the policy is returned (src/retry.go:135). -/
def DefaultBackOffState : TriesState ExpoState :=
  (withMaxRetries exponentialBackOff DefaultMaxRetry).reset ⟨0, ⟨0⟩⟩

/-- `DefaultRetryFunc` (src/retry.go:141-143): retry when the status
code is 0 or at least 500 and not 501 (`http.StatusNotImplemented`). -/
def DefaultRetryFunc (rs : Response) : Bool :=
  rs.statusCode == 0 || (decide (rs.statusCode ≥ 500) && rs.statusCode != 501)

/-- Outcome of the retry loop `backoff.Retry(op, b)`:
`finished opErr slot attempts seen` carries the error `backoff.Retry`
returned (`none` on success), the stored current response, the number
of transport invocations and the installed-body trace. -/
inductive LoopOut where
  | diverge : LoopOut
  | panicked : LoopOut
  | finished : Option Err → Option Response → Nat → List (Option (List Nat)) → LoopOut
deriving DecidableEq, Repr

/-- Modelled from the spec: the retry loop of §4.3 step 2 / `backoff.Retry`
driving the operation closure `op` of `DoWithRetryFunc`
(src/retry.go:99-115).  One iteration: install the buffered body if one
was captured (`install`), invoke the transport; on a transport error log
it (panicking when the logger is nil) and — unless the error is
permanent, which stops the loop at once — ask the policy for the next
delay, stopping with that error on the stop signal; on a response, store
it as the current response, then apply the predicate: if it asks for a
retry, log and consult the policy with the `need retry` error, otherwise
log success and stop with no error.  `hl` is logger presence, `i` the
attempt index, `slot` the stored response, `seen` the trace so far. -/
def retryLoop {σ : Type} (t : Nat → Except Err Response) (f : Response → Bool)
    (b : BackOffM σ) (install : Option (List Nat)) (hl : Bool) :
    Nat → Nat → Option Response → List (Option (List Nat)) → σ → LoopOut
  | 0, _, _, _, _ => .diverge
  | fuel + 1, i, slot, seen, s =>
    match t i with
    | .error e =>
      if hl then
        match e with
        | .permanentErr p => .finished (some p) slot (i + 1) (seen ++ [install])
        | _ =>
          match b.nextBackOff s with
          | (none, _) => .finished (some e) slot (i + 1) (seen ++ [install])
          | (some _, s') => retryLoop t f b install hl fuel (i + 1) slot (seen ++ [install]) s'
      else .panicked
    | .ok rs =>
      if f rs then
        if hl then
          match b.nextBackOff s with
          | (none, _) => .finished (some .needRetry) (some rs) (i + 1) (seen ++ [install])
          | (some _, s') =>
            retryLoop t f b install hl fuel (i + 1) (some rs) (seen ++ [install]) s'
        else .panicked
      else
        if hl then .finished none (some rs) (i + 1) (seen ++ [install])
        else .panicked

/-- Translation of the code after `backoff.Retry` returns
(src/retry.go:116-123): a non-nil loop error is wrapped as
`failedToRetry` with a nil response; otherwise the stored response is
returned (with the `bugNoResponse` guard when the slot is empty).
`fb` is the final state of the request body. -/
def finishLoop (fb : FinalBody) : LoopOut → Outcome
  | .diverge => .diverge
  | .panicked => .panicked
  | .finished (some e) _ n seen => .done ⟨none, some (.failedToRetry e), n, seen, fb⟩
  | .finished none none n seen => .done ⟨none, some .bugNoResponse, n, seen, fb⟩
  | .finished none (some rs) n seen => .done ⟨some rs, none, n, seen, fb⟩

/-- `Client.DoWithRetryFunc` (src/retry.go:85-124), with logger
presence `hl` explicit.  If the request has a body, `ioutil.ReadAll`
has produced `bs.bytes` and `bs.readAllErr`; an error other than
`io.EOF` is logged (panicking when the logger is nil) and returned
immediately wrapped as `backoff.Permanent`, with zero transport
attempts and the original stream neither closed nor replaced.
Otherwise the original stream is closed, the bytes are kept, and every
attempt installs a fresh reader over them, so the final request body is
`buffered bs.bytes` whenever the loop returns. -/
def doWithRetryFuncL {σ : Type} (hl : Bool) (t : Nat → Except Err Response) (r : Request)
    (b : BackOffM σ) (s : σ) (f : Response → Bool) (fuel : Nat) : Outcome :=
  match r.body with
  | none => finishLoop .noBody (retryLoop t f b none hl fuel 0 none [] (b.reset s))
  | some bs =>
    match bs.readAllErr with
    | none =>
      finishLoop (.buffered bs.bytes)
        (retryLoop t f b (some bs.bytes) hl fuel 0 none [] (b.reset s))
    | some e =>
      if e = Err.eof then
        finishLoop (.buffered bs.bytes)
          (retryLoop t f b (some bs.bytes) hl fuel 0 none [] (b.reset s))
      else if hl then .done ⟨none, some (.permanentErr e), 0, [], .originalBody bs⟩
      else .panicked

/-- A retry `Client` (src/retry.go:35-38): the wrapped `http.Client` is
abstracted to its observable behaviour, a transport function from the
attempt index to an error or a response; `hasLogger` records whether
the `logger` field is non-nil. -/
structure Client where
  hasLogger : Bool
  transport : Nat → Except Err Response

/-- `New` (src/retry.go:41-56): default transport configuration and a
logrus logger, so the logger is present. -/
def New (t : Nat → Except Err Response) : Client := ⟨true, t⟩

/-- `NewWithClient` (src/retry.go:59-63): only the `c` field is set;
the `logger` field is left nil. -/
def NewWithClient (t : Nat → Except Err Response) : Client := ⟨false, t⟩

/-- `WithLogger` (src/retry.go:66-69): installs the given (non-nil)
logger. -/
def WithLogger (c : Client) : Client := { c with hasLogger := true }

/-- `Client.DoWithRetryFunc` (src/retry.go:85). -/
def Client.DoWithRetryFunc {σ : Type} (c : Client) (r : Request) (b : BackOffM σ) (s : σ)
    (f : Response → Bool) (fuel : Nat) : Outcome :=
  doWithRetryFuncL c.hasLogger c.transport r b s f fuel

/-- `Client.DoWithBackOff` (src/retry.go:79-81): the given policy with
`DefaultRetryFunc`. -/
def Client.DoWithBackOff {σ : Type} (c : Client) (r : Request) (b : BackOffM σ) (s : σ)
    (fuel : Nat) : Outcome :=
  c.DoWithRetryFunc r b s DefaultRetryFunc fuel

/-- `Client.Do` (src/retry.go:72-74): a fresh `DefaultBackOff` with
`DefaultRetryFunc`. -/
def Client.Do (c : Client) (r : Request) (fuel : Nat) : Outcome :=
  c.DoWithBackOff r DefaultBackOff DefaultBackOffState fuel

/-- The initial body read succeeded: no body, a clean read, or a read
ending in `io.EOF` (the two cases `DoWithRetryFunc` proceeds with,
src/retry.go:92). -/
def bodyReadOK (r : Request) : Prop :=
  match r.body with
  | none => True
  | some bs => bs.readAllErr = none ∨ bs.readAllErr = some Err.eof

instance (r : Request) : Decidable (bodyReadOK r) := by
  unfold bodyReadOK
  exact match r.body with
  | none => inferInstanceAs (Decidable True)
  | some bs => inferInstanceAs (Decidable (_ ∨ _))

/-- The body bytes installed before each transport call: the buffered
bytes when the request has a body, nothing otherwise. -/
def installOf (r : Request) : Option (List Nat) :=
  match r.body with
  | none => none
  | some bs => some bs.bytes

/-- The final state of the request body on the non-aborting paths. -/
def fbOf (r : Request) : FinalBody :=
  match r.body with
  | none => .noBody
  | some bs => .buffered bs.bytes

/-- The delays a policy produces: iterate `nextBackOff` from state `s`,
collecting `n` results (`none` marks the stop signal). -/
def backOffSeq {σ : Type} (b : BackOffM σ) (s : σ) : Nat → List (Option Nat)
  | 0 => []
  | n + 1 =>
    let p := b.nextBackOff s
    p.1 :: backOffSeq b p.2 n

/-- A policy that stops at once: its first `nextBackOff` already signals
exhaustion (used to exercise the exhaustion path on one attempt). -/
def stopBackOff : BackOffM Unit where
  reset := fun s => s
  nextBackOff := fun s => (none, s)

/-- On a request whose initial body read succeeded, `DoWithRetryFunc`
is the retry loop over the installed body followed by the
result-translation step. -/
theorem doWithRetryFuncL_bodyOK {σ : Type} (hl : Bool) (t : Nat → Except Err Response)
    (r : Request) (b : BackOffM σ) (s : σ) (f : Response → Bool) (fuel : Nat)
    (hr : bodyReadOK r) :
    doWithRetryFuncL hl t r b s f fuel =
      finishLoop (fbOf r) (retryLoop t f b (installOf r) hl fuel 0 none [] (b.reset s)) := by
  obtain ⟨ob⟩ := r
  cases ob with
  | none => rfl
  | some bs =>
    obtain ⟨bts, re⟩ := bs
    cases re with
    | none => rfl
    | some e =>
      have he : e = Err.eof := by simpa [bodyReadOK] using hr
      subst he
      simp [doWithRetryFuncL, installOf, fbOf]

/-- Whenever the retry loop finishes, it made at least one attempt,
the attempt count grew by the number of loop iterations, and the trace
gained exactly one copy of the installed body per iteration. -/
theorem retryLoop_finished_seen {σ : Type} (t : Nat → Except Err Response) (f : Response → Bool)
    (b : BackOffM σ) (install : Option (List Nat)) (hl : Bool) :
    ∀ fuel i slot seen s oe sl n sn,
      retryLoop t f b install hl fuel i slot seen s = .finished oe sl n sn →
      ∃ m, 1 ≤ m ∧ n = i + m ∧ sn = seen ++ List.replicate m install := by
  intro fuel
  induction fuel with
  | zero =>
    intro i slot seen s oe sl n sn h
    simp [retryLoop] at h
  | succ fu ih =>
    intro i slot seen s oe sl n sn h
    simp only [retryLoop] at h
    split at h
    · split at h
      · split at h
        · injection h with h1 h2 h3 h4
          subst h3
          subst h4
          exact ⟨1, by omega, by omega, by simp⟩
        · split at h
          · injection h with h1 h2 h3 h4
            subst h3
            subst h4
            exact ⟨1, by omega, by omega, by simp⟩
          · obtain ⟨m, hm1, hm2, hm3⟩ := ih _ _ _ _ _ _ _ _ h
            refine ⟨m + 1, by omega, by omega, ?_⟩
            rw [hm3]
            simp [List.replicate_succ]
      · simp at h
    · split at h
      · split at h
        · split at h
          · injection h with h1 h2 h3 h4
            subst h3
            subst h4
            exact ⟨1, by omega, by omega, by simp⟩
          · obtain ⟨m, hm1, hm2, hm3⟩ := ih _ _ _ _ _ _ _ _ h
            refine ⟨m + 1, by omega, by omega, ?_⟩
            rw [hm3]
            simp [List.replicate_succ]
        · simp at h
      · split at h
        · injection h with h1 h2 h3 h4
          subst h3
          subst h4
          exact ⟨1, by omega, by omega, by simp⟩
        · simp at h

/-- `finishLoop` returns `done` exactly for finished loops; the result
copies the loop's attempt count and trace, carries the given final
body, and is a response with no error or an error with no response. -/
theorem finishLoop_done_inv (fb : FinalBody) (lo : LoopOut) (res : DoResult)
    (h : finishLoop fb lo = .done res) :
    ∃ oe sl n sn, lo = .finished oe sl n sn ∧ res.finalBody = fb ∧ res.attempts = n ∧
      res.bodiesSeen = sn ∧
      ((res.response ≠ none ∧ res.error = none) ∨ (res.response = none ∧ res.error ≠ none)) := by
  cases lo with
  | diverge => simp [finishLoop] at h
  | panicked => simp [finishLoop] at h
  | finished oe sl n sn =>
    cases oe with
    | some e =>
      simp only [finishLoop] at h
      injection h with h1
      subst h1
      exact ⟨some e, sl, n, sn, rfl, rfl, rfl, rfl, Or.inr (by simp)⟩
    | none =>
      cases sl with
      | none =>
        simp only [finishLoop] at h
        injection h with h1
        subst h1
        exact ⟨none, none, n, sn, rfl, rfl, rfl, rfl, Or.inr (by simp)⟩
      | some rs =>
        simp only [finishLoop] at h
        injection h with h1
        subst h1
        exact ⟨none, some rs, n, sn, rfl, rfl, rfl, rfl, Or.inl (by simp)⟩

/-- Every `done` result of the engine has either a response and no
error or an error and no response, for any logger state, policy and
predicate. -/
theorem doWithRetryFuncL_done_xor {σ : Type} (hl : Bool) (t : Nat → Except Err Response)
    (r : Request) (b : BackOffM σ) (s : σ) (f : Response → Bool) (fuel : Nat) (res : DoResult)
    (h : doWithRetryFuncL hl t r b s f fuel = .done res) :
    (res.response ≠ none ∧ res.error = none) ∨ (res.response = none ∧ res.error ≠ none) := by
  unfold doWithRetryFuncL at h
  split at h
  · obtain ⟨oe, sl, n, sn, -, -, -, -, hx⟩ := finishLoop_done_inv _ _ _ h
    exact hx
  · split at h
    · obtain ⟨oe, sl, n, sn, -, -, -, -, hx⟩ := finishLoop_done_inv _ _ _ h
      exact hx
    · split at h
      · obtain ⟨oe, sl, n, sn, -, -, -, -, hx⟩ := finishLoop_done_inv _ _ _ h
        exact hx
      · split at h
        · injection h with h1
          subst h1
          exact Or.inr (by simp)
        · simp at h

/-- Claim C3: `DefaultRetryFunc` returns `true` exactly when the
response's status code is 0 (no status received) or at least 500 and
different from 501 (`http.StatusNotImplemented`).  The predicate is a
pure function of the response — in the source it only reads
`rs.StatusCode` (src/retry.go:141-143) and performs no write, which the
embedding reflects by typing it `Response → Bool`. -/
theorem defaultRetryFunc_iff (rs : Response) :
    DefaultRetryFunc rs = true ↔
      (rs.statusCode = 0 ∨ (500 ≤ rs.statusCode ∧ rs.statusCode ≠ 501)) := by
  simp [DefaultRetryFunc]

/-- Claim C8: from its freshly reset state, `DefaultBackOff` grants
exactly the delays 1, 2, 4, 8, 16, 32, 60, 60, 60, 60 time-units for
its 10 permitted retries, and the 11th request signals exhaustion. -/
theorem defaultBackOff_delay_seq :
    backOffSeq DefaultBackOff DefaultBackOffState 11 =
      [some 1, some 2, some 4, some 8, some 16, some 32,
       some 60, some 60, some 60, some 60, none] := by
  rfl

/-- Claim C4: when the initial body read fails with an error other than
`io.EOF`, `DoWithRetryFunc` returns at once (zero transport attempts,
empty trace) with a nil response and the error wrapped as
`backoff.Permanent`, leaving the original body stream in place. -/
theorem readFail_returns_permanent {σ : Type} (t : Nat → Except Err Response) (b : BackOffM σ)
    (s : σ) (f : Response → Bool) (fuel : Nat) (bs : BodyStream) (e : Err)
    (h1 : bs.readAllErr = some e) (h2 : e ≠ Err.eof) :
    doWithRetryFuncL true t ⟨some bs⟩ b s f fuel =
      .done ⟨none, some (.permanentErr e), 0, [], .originalBody bs⟩ := by
  obtain ⟨bts, re⟩ := bs
  have h1x : re = some e := h1
  subst h1x
  simp [doWithRetryFuncL, h2]

/-- Witness for C4 at a concrete failing read. -/
theorem readFail_returns_permanent_witness :
    doWithRetryFuncL true (fun _ => Except.ok ⟨200, []⟩) ⟨some ⟨[7], some (Err.ioErr "bad")⟩⟩
      DefaultBackOff DefaultBackOffState DefaultRetryFunc 3 =
      Outcome.done ⟨none, some (Err.permanentErr (Err.ioErr "bad")), 0, [],
        FinalBody.originalBody ⟨[7], some (Err.ioErr "bad")⟩⟩ :=
  readFail_returns_permanent _ DefaultBackOff DefaultBackOffState DefaultRetryFunc 3 _ _ rfl
    (by decide)

/-- Claim C6: whenever the retry loop ends with an error — exhaustion
after a retry-worthy response (`needRetry`) or after a transport error —
`DoWithRetryFunc` returns a nil response and the error wrapped as
`failedToRetry`, whatever response the slot stored: the stored response
never reaches the caller. -/
theorem exhaustion_discards_stored_response {σ : Type} (t : Nat → Except Err Response)
    (r : Request) (b : BackOffM σ) (s : σ) (f : Response → Bool) (fuel n : Nat) (e : Err)
    (slot : Option Response) (sn : List (Option (List Nat)))
    (hr : bodyReadOK r)
    (hloop : retryLoop t f b (installOf r) true fuel 0 none [] (b.reset s) =
      .finished (some e) slot n sn) :
    doWithRetryFuncL true t r b s f fuel =
      .done ⟨none, some (.failedToRetry e), n, sn, fbOf r⟩ := by
  rw [doWithRetryFuncL_bodyOK true t r b s f fuel hr, hloop]
  rfl

/-- Witness for C6: one attempt against an immediately exhausted
policy, with a stored 500 response that is discarded. -/
theorem exhaustion_discards_stored_response_witness :
    doWithRetryFuncL true (fun _ => Except.ok ⟨500, []⟩) ⟨none⟩ stopBackOff () DefaultRetryFunc
      1 = Outcome.done ⟨none, some (Err.failedToRetry Err.needRetry), 1, [none],
        FinalBody.noBody⟩ :=
  exhaustion_discards_stored_response _ ⟨none⟩ stopBackOff () DefaultRetryFunc 1 1 Err.needRetry
    (some ⟨500, []⟩) [none] True.intro rfl

/-- Claim C7: each public entry point — `DoWithRetryFunc`,
`DoWithBackOff`, `Do` — returns either a response with a nil error or a
nil response with a non-nil error, for every client, request, policy
and predicate; it never returns both. -/
theorem publicApi_response_xor_error {σ : Type} (c : Client) (r : Request) (b : BackOffM σ)
    (s : σ) (f : Response → Bool) (fuel : Nat) :
    (∀ res, c.DoWithRetryFunc r b s f fuel = .done res →
      ((res.response ≠ none ∧ res.error = none) ∨ (res.response = none ∧ res.error ≠ none))) ∧
    (∀ res, c.DoWithBackOff r b s fuel = .done res →
      ((res.response ≠ none ∧ res.error = none) ∨ (res.response = none ∧ res.error ≠ none))) ∧
    (∀ res, c.Do r fuel = .done res →
      ((res.response ≠ none ∧ res.error = none) ∨ (res.response = none ∧ res.error ≠ none))) := by
  refine ⟨?_, ?_, ?_⟩ <;> intro res h <;>
    simp only [Client.Do, Client.DoWithBackOff, Client.DoWithRetryFunc] at h <;>
    exact doWithRetryFuncL_done_xor _ _ _ _ _ _ _ _ h

/-- Witness for C7 at a concrete successful call of `Do`. -/
theorem publicApi_response_xor_error_witness :
    ((DoResult.mk (some ⟨200, [1]⟩) none 1 [none] .noBody).response ≠ none ∧
        (DoResult.mk (some ⟨200, [1]⟩) none 1 [none] .noBody).error = none) ∨
      ((DoResult.mk (some ⟨200, [1]⟩) none 1 [none] .noBody).response = none ∧
        (DoResult.mk (some ⟨200, [1]⟩) none 1 [none] .noBody).error ≠ none) :=
  (publicApi_response_xor_error (New (fun _ => Except.ok ⟨200, [1]⟩)) ⟨none⟩ DefaultBackOff
    DefaultBackOffState DefaultRetryFunc 1).2.2 ⟨some ⟨200, [1]⟩, none, 1, [none], .noBody⟩ rfl

/-- Claim C5: with a body that read cleanly (or up to `io.EOF`), the
bytes are buffered once and the original stream is closed and replaced
(`finalBody = buffered`); every transport invocation — the last
included — observes exactly the buffered original bytes, one trace
entry per attempt.  With no body, buffering is skipped: no attempt
installs anything. -/
theorem bodyBuffer_replay {σ : Type} (t : Nat → Except Err Response) (b : BackOffM σ) (s : σ)
    (f : Response → Bool) (fuel : Nat) :
    (∀ bs res, bodyReadOK ⟨some bs⟩ →
      doWithRetryFuncL true t ⟨some bs⟩ b s f fuel = .done res →
      res.finalBody = .buffered bs.bytes ∧ res.bodiesSeen.length = res.attempts ∧
        ∀ x ∈ res.bodiesSeen, x = some bs.bytes) ∧
    (∀ res, doWithRetryFuncL true t ⟨none⟩ b s f fuel = .done res →
      res.finalBody = .noBody ∧ ∀ x ∈ res.bodiesSeen, x = none) := by
  constructor
  · intro bs res hok h
    rw [doWithRetryFuncL_bodyOK true t ⟨some bs⟩ b s f fuel hok] at h
    obtain ⟨oe, sl, n, sn, hlo, hfb, hat, hseen, -⟩ := finishLoop_done_inv _ _ _ h
    obtain ⟨m, hm1, hm2, hm3⟩ :=
      retryLoop_finished_seen t f b (installOf ⟨some bs⟩) true fuel 0 none [] _ oe sl n sn hlo
    refine ⟨by simpa [fbOf] using hfb, ?_, ?_⟩
    · rw [hseen, hat, hm3, hm2]
      simp
    · intro x hx
      rw [hseen, hm3] at hx
      simp only [List.nil_append] at hx
      simpa [installOf] using List.eq_of_mem_replicate hx
  · intro res h
    rw [doWithRetryFuncL_bodyOK true t ⟨none⟩ b s f fuel True.intro] at h
    obtain ⟨oe, sl, n, sn, hlo, hfb, hat, hseen, -⟩ := finishLoop_done_inv _ _ _ h
    obtain ⟨m, hm1, hm2, hm3⟩ :=
      retryLoop_finished_seen t f b (installOf ⟨none⟩) true fuel 0 none [] _ oe sl n sn hlo
    refine ⟨by simpa [fbOf] using hfb, ?_⟩
    intro x hx
    rw [hseen, hm3] at hx
    simp only [List.nil_append] at hx
    simpa [installOf] using List.eq_of_mem_replicate hx

/-- Witness for C5 at a concrete one-attempt run with body bytes
`[3]`. -/
theorem bodyBuffer_replay_witness :
    (DoResult.mk (some ⟨200, [5]⟩) none 1 [some [3]] (FinalBody.buffered [3])).finalBody =
        FinalBody.buffered (BodyStream.mk [3] none).bytes ∧
      (DoResult.mk (some ⟨200, [5]⟩) none 1 [some [3]] (FinalBody.buffered [3])).bodiesSeen.length =
        (DoResult.mk (some ⟨200, [5]⟩) none 1 [some [3]] (FinalBody.buffered [3])).attempts ∧
      ∀ x ∈ (DoResult.mk (some ⟨200, [5]⟩) none 1 [some [3]]
        (FinalBody.buffered [3])).bodiesSeen, x = some (BodyStream.mk [3] none).bytes :=
  (bodyBuffer_replay (fun _ => Except.ok ⟨200, [5]⟩) DefaultBackOff DefaultBackOffState
    DefaultRetryFunc 1).1 ⟨[3], none⟩ ⟨some ⟨200, [5]⟩, none, 1, [some [3]], .buffered [3]⟩
    (Or.inl rfl) rfl

/-- One loop iteration that obtains a response, is told to retry, and
is granted a delay: the loop recurses with the response stored and the
trace extended. -/
theorem retryLoop_step_retry {σ : Type} (t : Nat → Except Err Response) (f : Response → Bool)
    (b : BackOffM σ) (install : Option (List Nat)) (fu i : Nat) (slot : Option Response)
    (seen : List (Option (List Nat))) (s s₂ : σ) (rs : Response) (d : Nat)
    (hrs : t i = Except.ok rs) (hfr : f rs = true) (hnb : b.nextBackOff s = (some d, s₂)) :
    retryLoop t f b install true (fu + 1) i slot seen s =
      retryLoop t f b install true fu (i + 1) (some rs) (seen ++ [install]) s₂ := by
  simp [retryLoop, hrs, hfr, hnb]

/-- One loop iteration that obtains a response, is told to retry, and
meets the stop signal: the loop finishes with the `needRetry` error,
the response stored but doomed to be discarded. -/
theorem retryLoop_step_stop {σ : Type} (t : Nat → Except Err Response) (f : Response → Bool)
    (b : BackOffM σ) (install : Option (List Nat)) (fu i : Nat) (slot : Option Response)
    (seen : List (Option (List Nat))) (s s₂ : σ) (rs : Response)
    (hrs : t i = Except.ok rs) (hfr : f rs = true) (hnb : b.nextBackOff s = (none, s₂)) :
    retryLoop t f b install true (fu + 1) i slot seen s =
      .finished (some .needRetry) (some rs) (i + 1) (seen ++ [install]) := by
  simp [retryLoop, hrs, hfr, hnb]

/-- One loop iteration that obtains a response the predicate accepts:
the loop finishes successfully with that response stored. -/
theorem retryLoop_step_done {σ : Type} (t : Nat → Except Err Response) (f : Response → Bool)
    (b : BackOffM σ) (install : Option (List Nat)) (fu i : Nat) (slot : Option Response)
    (seen : List (Option (List Nat))) (s : σ) (rs : Response)
    (hrs : t i = Except.ok rs) (hfr : f rs = false) :
    retryLoop t f b install true (fu + 1) i slot seen s =
      .finished none (some rs) (i + 1) (seen ++ [install]) := by
  simp [retryLoop, hrs, hfr]

/-- Against a transport whose every response the default predicate
rejects, the loop under `DefaultBackOff` makes exactly `m + 1` further
attempts from a wrapper state that has already granted `10 - m`
retries, and stops with the `needRetry` error. -/
theorem retryLoop_default_always_retry (t : Nat → Except Err Response)
    (ht : ∀ i, ∃ rs, t i = Except.ok rs ∧ DefaultRetryFunc rs = true)
    (install : Option (List Nat)) :
    ∀ m, m ≤ 10 → ∀ fuel, m + 1 ≤ fuel → ∀ i (slot : Option Response) seen (e : ExpoState),
      ∃ rs sn,
        retryLoop t DefaultRetryFunc DefaultBackOff install true fuel i slot seen ⟨10 - m, e⟩ =
          .finished (some .needRetry) (some rs) (i + (m + 1)) sn := by
  intro m
  induction m with
  | zero =>
    intro _ fuel hf i slot seen e
    obtain ⟨fu, rfl⟩ : ∃ fu, fuel = fu + 1 := ⟨fuel - 1, by omega⟩
    obtain ⟨rs, hrs, hfr⟩ := ht i
    refine ⟨rs, seen ++ [install], ?_⟩
    have hnb : DefaultBackOff.nextBackOff ⟨10 - 0, e⟩ = (none, ⟨10 - 0, e⟩) := by
      simp [DefaultBackOff, withMaxRetries, DefaultMaxRetry]
    rw [retryLoop_step_stop t DefaultRetryFunc DefaultBackOff install fu i slot seen _ _ rs
      hrs hfr hnb]
  | succ k ih =>
    intro hm fuel hf i slot seen e
    obtain ⟨fu, rfl⟩ : ∃ fu, fuel = fu + 1 := ⟨fuel - 1, by omega⟩
    obtain ⟨rs, hrs, hfr⟩ := ht i
    have hnb : DefaultBackOff.nextBackOff ⟨10 - (k + 1), e⟩ =
        (some e.currentInterval, ⟨10 - k, ⟨min (e.currentInterval * 2) 60⟩⟩) := by
      have h2 : ¬ (10 ≤ 9 - k) := by omega
      have h3 : 9 - k + 1 = 10 - k := by omega
      simp [DefaultBackOff, withMaxRetries, DefaultMaxRetry, exponentialBackOff, h2, h3]
    obtain ⟨rs', sn', hrec⟩ := ih (by omega) fu (by omega) (i + 1) (some rs)
      (seen ++ [install]) ⟨min (e.currentInterval * 2) 60⟩
    refine ⟨rs', sn', ?_⟩
    rw [retryLoop_step_retry t DefaultRetryFunc DefaultBackOff install fu i slot seen _ _ rs
      e.currentInterval hrs hfr hnb, hrec]
    have harr : i + 1 + (k + 1) = i + (k + 1 + 1) := by omega
    rw [harr]

/-- Claim C1 (amended): for every request whose initial body read does
not fail (no body, a clean read, or `io.EOF`), if the transport returns
on every attempt a response with status in {500, 502, 503}, then
`Client.Do` — default policy and predicate — performs exactly
`DefaultMaxRetry + 1 = 11` transport attempts and returns a non-nil
error (`failedToRetry needRetry`) with no response. -/
theorem do_alwaysServerError_attempts (t : Nat → Except Err Response) (r : Request) (fuel : Nat)
    (ht : ∀ i, ∃ rs, t i = Except.ok rs ∧
      (rs.statusCode = 500 ∨ rs.statusCode = 502 ∨ rs.statusCode = 503))
    (hr : bodyReadOK r) (hf : DefaultMaxRetry + 1 ≤ fuel) :
    ∃ res, Client.Do ⟨true, t⟩ r fuel = .done res ∧ res.attempts = DefaultMaxRetry + 1 ∧
      res.response = none ∧ res.error = some (.failedToRetry .needRetry) := by
  have ht' : ∀ i, ∃ rs, t i = Except.ok rs ∧ DefaultRetryFunc rs = true := by
    intro i
    obtain ⟨rs, hh1, hh2⟩ := ht i
    refine ⟨rs, hh1, ?_⟩
    rcases hh2 with h | h | h <;> simp [DefaultRetryFunc, h]
  have hf' : 10 + 1 ≤ fuel := hf
  obtain ⟨rs, sn, hloop⟩ := retryLoop_default_always_retry t ht' (installOf r) 10 (by omega)
    fuel (by omega) 0 none [] ⟨1⟩
  refine ⟨⟨none, some (.failedToRetry .needRetry), 0 + (10 + 1), sn, fbOf r⟩, ?_, by
    simp [DefaultMaxRetry], rfl, rfl⟩
  simp only [Client.Do, Client.DoWithBackOff, Client.DoWithRetryFunc]
  rw [doWithRetryFuncL_bodyOK true t r DefaultBackOff DefaultBackOffState DefaultRetryFunc
    fuel hr]
  have hreset : DefaultBackOff.reset DefaultBackOffState = ⟨10 - 10, ⟨1⟩⟩ := rfl
  rw [hreset, hloop]
  rfl

/-- Counterexample to C1 as stated: a request whose body read fails
keeps the executor from ever invoking the transport, so even against a
transport that always answers 500 there are 0 attempts, not
`DefaultMaxRetry + 1`. -/
theorem do_alwaysServerError_attempts_counterexample :
    Client.Do ⟨true, fun _ => Except.ok ⟨500, [2]⟩⟩
      ⟨some ⟨[], some (Err.ioErr "broken body")⟩⟩ 20 =
      Outcome.done ⟨none, some (Err.permanentErr (Err.ioErr "broken body")), 0, [],
        FinalBody.originalBody ⟨[], some (Err.ioErr "broken body")⟩⟩ ∧
      (0 : Nat) ≠ DefaultMaxRetry + 1 :=
  ⟨rfl, by decide⟩

/-- Witness for the amended C1 at a transport that always answers
503. -/
theorem do_alwaysServerError_attempts_witness :
    ∃ res, Client.Do ⟨true, fun _ => Except.ok ⟨503, []⟩⟩ ⟨none⟩ 11 = Outcome.done res ∧
      res.attempts = DefaultMaxRetry + 1 ∧ res.response = none ∧
      res.error = some (Err.failedToRetry Err.needRetry) :=
  do_alwaysServerError_attempts _ ⟨none⟩ 11 (fun _ => ⟨⟨503, []⟩, rfl, Or.inr (Or.inr rfl)⟩)
    True.intro (by decide)

/-- Claim C2 (amended): for every request whose initial body read does
not fail, if under the default policy and predicate the transport
yields a retry-worthy response on the first attempt and a 200 response
on the second, then `Client.Do` performs exactly 2 transport attempts
and returns the second response — body untouched — with a nil error. -/
theorem do_secondAttempt_ok (t : Nat → Except Err Response) (rs₁ rs₂ : Response) (r : Request)
    (fuel : Nat) (h0 : t 0 = Except.ok rs₁) (hretry : DefaultRetryFunc rs₁ = true)
    (h1 : t 1 = Except.ok rs₂) (h200 : rs₂.statusCode = 200)
    (hr : bodyReadOK r) (hf : 2 ≤ fuel) :
    ∃ res, Client.Do ⟨true, t⟩ r fuel = .done res ∧ res.attempts = 2 ∧
      res.response = some rs₂ ∧ res.error = none := by
  obtain ⟨fu, rfl⟩ : ∃ fu, fuel = fu + 1 + 1 := ⟨fuel - 2, by omega⟩
  have hok : DefaultRetryFunc rs₂ = false := by simp [DefaultRetryFunc, h200]
  refine ⟨⟨some rs₂, none, 0 + 1 + 1, [] ++ [installOf r] ++ [installOf r], fbOf r⟩, ?_,
    by simp, rfl, rfl⟩
  simp only [Client.Do, Client.DoWithBackOff, Client.DoWithRetryFunc]
  rw [doWithRetryFuncL_bodyOK true t r DefaultBackOff DefaultBackOffState DefaultRetryFunc
    (fu + 1 + 1) hr]
  have hreset : DefaultBackOff.reset DefaultBackOffState = (⟨0, ⟨1⟩⟩ : TriesState ExpoState) :=
    rfl
  have hnb : DefaultBackOff.nextBackOff ⟨0, ⟨1⟩⟩ = (some 1, ⟨1, ⟨2⟩⟩) := rfl
  rw [hreset, retryLoop_step_retry t DefaultRetryFunc DefaultBackOff (installOf r) (fu + 1) 0
      none [] _ _ rs₁ 1 h0 hretry hnb,
    retryLoop_step_done t DefaultRetryFunc DefaultBackOff (installOf r) fu (0 + 1) (some rs₁)
      ([] ++ [installOf r]) _ rs₂ h1 hok]
  rfl

/-- Counterexample to C2 as stated: a request whose body read fails is
answered with a permanent error and 0 transport attempts even though
the transport would yield a retry-worthy response then a 200. -/
theorem do_secondAttempt_ok_counterexample :
    Client.Do ⟨true, fun i => if i = 0 then Except.ok ⟨500, [1]⟩ else Except.ok ⟨200, [2]⟩⟩
      ⟨some ⟨[4], some (Err.ioErr "cannot read")⟩⟩ 20 =
      Outcome.done ⟨none, some (Err.permanentErr (Err.ioErr "cannot read")), 0, [],
        FinalBody.originalBody ⟨[4], some (Err.ioErr "cannot read")⟩⟩ ∧
      (0 : Nat) ≠ 2 :=
  ⟨rfl, by decide⟩

/-- Witness for the amended C2: 500 then 200, two attempts, the 200
response with its body returned unchanged. -/
theorem do_secondAttempt_ok_witness :
    ∃ res, Client.Do ⟨true, fun i => if i = 0 then Except.ok ⟨500, [1]⟩
        else Except.ok ⟨200, [2]⟩⟩ ⟨none⟩ 2 = Outcome.done res ∧
      res.attempts = 2 ∧ res.response = some ⟨200, [2]⟩ ∧ res.error = none :=
  do_secondAttempt_ok _ ⟨500, [1]⟩ ⟨200, [2]⟩ ⟨none⟩ 2 rfl (by decide) rfl rfl True.intro
    (by decide)

/-- Claim C9 refuted (code bug): a client built with `NewWithClient`
and never given a logger has a nil `logger` field, and every execution
path of `DoWithRetryFunc` calls `c.logger.Errorf` or `c.logger.Infof`
(src/retry.go:93,105,110,113), so even a request that succeeds at once
panics on the nil interface; the same call with a logger installed via
`WithLogger` returns the response normally. -/
theorem nilLogger_panics :
    Client.Do (NewWithClient (fun _ => Except.ok ⟨200, [8]⟩)) ⟨none⟩ 5 = Outcome.panicked ∧
      Client.Do (WithLogger (NewWithClient (fun _ => Except.ok ⟨200, [8]⟩))) ⟨none⟩ 5 =
        Outcome.done ⟨some ⟨200, [8]⟩, none, 1, [none], FinalBody.noBody⟩ :=
  ⟨rfl, rfl⟩

/-- Counterexample to C10 as stated: on a request whose body read fails
with a non-EOF error, `DoWithRetryFunc` returns before closing or
replacing the body, so the caller's request still holds its original
stream. -/
theorem body_mutation_counterexample :
    Client.DoWithRetryFunc ⟨true, fun _ => Except.ok ⟨204, []⟩⟩
      ⟨some ⟨[1, 2], some (Err.ioErr "io failure")⟩⟩ DefaultBackOff DefaultBackOffState
      DefaultRetryFunc 5 =
      Outcome.done ⟨none, some (Err.permanentErr (Err.ioErr "io failure")), 0, [],
        FinalBody.originalBody ⟨[1, 2], some (Err.ioErr "io failure")⟩⟩ ∧
      FinalBody.originalBody ⟨[1, 2], some (Err.ioErr "io failure")⟩ ≠
        FinalBody.buffered [1, 2] :=
  ⟨rfl, by decide⟩

/-- Claim C10 (amended): whenever `DoWithRetryFunc` returns on a
request with a non-nil body whose initial read succeeded (or ended in
`io.EOF`), the caller's request has been mutated in place: the original
stream is closed and the `Body` field holds a reader over the buffered
bytes; a bodyless request is left unchanged. -/
theorem body_replaced_when_readOK {σ : Type} (t : Nat → Except Err Response) (b : BackOffM σ)
    (s : σ) (f : Response → Bool) (fuel : Nat) :
    (∀ bs res, bodyReadOK ⟨some bs⟩ →
      doWithRetryFuncL true t ⟨some bs⟩ b s f fuel = .done res →
      res.finalBody = .buffered bs.bytes) ∧
    (∀ res, doWithRetryFuncL true t ⟨none⟩ b s f fuel = .done res →
      res.finalBody = .noBody) := by
  constructor
  · intro bs res hok h
    rw [doWithRetryFuncL_bodyOK true t ⟨some bs⟩ b s f fuel hok] at h
    obtain ⟨oe, sl, n, sn, -, hfb, -, -, -⟩ := finishLoop_done_inv _ _ _ h
    simpa [fbOf] using hfb
  · intro res h
    rw [doWithRetryFuncL_bodyOK true t ⟨none⟩ b s f fuel True.intro] at h
    obtain ⟨oe, sl, n, sn, -, hfb, -, -, -⟩ := finishLoop_done_inv _ _ _ h
    simpa [fbOf] using hfb

/-- Witness for the amended C10 at a concrete one-attempt run with
body bytes `[9]`. -/
theorem body_replaced_when_readOK_witness :
    (DoResult.mk (some ⟨204, [6]⟩) none 1 [some [9]] (FinalBody.buffered [9])).finalBody =
      FinalBody.buffered (BodyStream.mk [9] none).bytes :=
  (body_replaced_when_readOK (fun _ => Except.ok ⟨204, [6]⟩) DefaultBackOff DefaultBackOffState
    DefaultRetryFunc 1).1 ⟨[9], none⟩ ⟨some ⟨204, [6]⟩, none, 1, [some [9]], .buffered [9]⟩
    (Or.inl rfl) rfl

end Retry
